import Mathlib

/-!
# OpenBrowserClaw — verification of the protocol-translation and tool-loop core

Shallow embedding of the repository's core:
* `translations.ts` — model-id canonicalization (`mapModelToCopilot`),
  Anthropic ⇄ OpenAI message translation (`anthropicToOpenAI`, `openAIToAnthropic`);
* `proxy-server.ts` — credential gateway state
  (`refreshCopilotToken`, `getCopilotJWT`, `POST /auth/github-token`);
* `src/agent-worker.ts` — the tool-use loop (`handleInvoke`) and the
  tool executor (`executeTool`).

Effectful collaborators (shell, file store, HTTP fetch, `eval`, the token
issuer, the chat backend) are passed in as explicit function parameters;
JavaScript truthiness is modelled explicitly where the source relies on it.
-/

namespace OBC

/-! ## JavaScript-semantics helpers -/

/-- JS `x || d` for an optional number: `undefined` and `0` are falsy. -/
def jsOrNat (o : Option Nat) (d : Nat) : Nat :=
  match o with
  | none => d
  | some 0 => d
  | some n => n

/-- JS `x || d` for an optional string: `undefined` and `""` are falsy. -/
def jsOrStr (o : Option String) (d : String) : String :=
  match o with
  | none => d
  | some s => if s = "" then d else s

/-- JS truthiness test for an optional string value (`undefined`/`null` and
`""` are falsy). -/
def jsFalsyStr (o : Option String) : Bool :=
  match o with
  | none => true
  | some s => s = ""

/-- String interpolation of a possibly-`undefined` value: JS renders
`undefined` as the string `"undefined"`. -/
def jsShow (o : Option String) : String :=
  match o with
  | none => "undefined"
  | some s => s

/-- JS whitespace class used by `String.prototype.trim` (the code points
that actually occur in this code base's data: space, tab, LF, CR, VT, FF,
NBSP, BOM). -/
def jsWhitespace (c : Char) : Bool :=
  c = ' ' || c = '\t' || c = '\n' || c = '\r' ||
  c = '\x0b' || c = '\x0c' || c = ' ' || c = '﻿'

/-- JS `String.prototype.trim`. -/
def jsTrim (s : String) : String :=
  String.mk (((s.data.dropWhile jsWhitespace).reverse.dropWhile jsWhitespace).reverse)

/-- JS `String.prototype.trimStart`. -/
def jsTrimStart (s : String) : String :=
  String.mk (s.data.dropWhile jsWhitespace)

/-- JS `String.prototype.startsWith`, over the character sequence. -/
def strStartsWith (s p : String) : Bool :=
  p.data.isPrefixOf s.data

/-- Is `p` an infix of `l`? -/
def listIsInfixOf (p : List Char) : List Char → Bool
  | [] => p.isEmpty
  | c :: cs => p.isPrefixOf (c :: cs) || listIsInfixOf p cs

/-- JS `String.prototype.includes`, over the character sequence. -/
def strIncludes (s p : String) : Bool :=
  listIsInfixOf p.data s.data

/-- JS `String.prototype.slice(0, n)`. -/
def strSlice (s : String) (n : Nat) : String :=
  String.mk (s.data.take n)

/-! ## Model-id canonicalization (`translations.ts`, `mapModelToCopilot`) -/

/-- `translations.ts` / `mapModelToCopilot`: rewrite the five known
Claude model-id prefixes to Copilot's dotted form; pass everything else
through unchanged. -/
def mapModelToCopilot (model : String) : String :=
  if strStartsWith model "claude-opus-4-6" then "claude-opus-4.6"
  else if strStartsWith model "claude-sonnet-4-6" then "claude-sonnet-4.6"
  else if strStartsWith model "claude-opus-4-5" then "claude-opus-4.5"
  else if strStartsWith model "claude-sonnet-4-5" then "claude-sonnet-4.5"
  else if strStartsWith model "claude-haiku-4-5" then "claude-haiku-4.5"
  else model

/-- The five prefix → canonical-id pairs hard-coded in `mapModelToCopilot`. -/
def copilotPrefixTable : List (String × String) :=
  [("claude-opus-4-6", "claude-opus-4.6"),
   ("claude-sonnet-4-6", "claude-sonnet-4.6"),
   ("claude-opus-4-5", "claude-opus-4.5"),
   ("claude-sonnet-4-5", "claude-sonnet-4.5"),
   ("claude-haiku-4-5", "claude-haiku-4.5")]

/-- Split a character list on `-` separators. -/
def splitDash : List Char → List (List Char)
  | [] => [[]]
  | c :: cs =>
    if c = '-' then [] :: splitDash cs
    else
      match splitDash cs with
      | [] => [[c]]
      | h :: t => (c :: h) :: t

/-- Nonempty all-digit segment. -/
def isNumSeg (l : List Char) : Bool :=
  !l.isEmpty && l.all Char.isDigit

/-- Modelled from the spec: the canonicalization the specification describes —
a dash-separated id of the form `claude-<family>-<major>-<minor>[-<suffix>]`
is rewritten to `claude-<family>-<major>.<minor>` with any suffix discarded;
every other id passes through unchanged. Used only to compare the spec's
description against the source's `mapModelToCopilot`. -/
def specCanonicalize (model : String) : String :=
  match splitDash model.data with
  | claudeSeg :: familySeg :: majorSeg :: minorSeg :: _ =>
    if claudeSeg = "claude".data && !familySeg.isEmpty &&
        isNumSeg majorSeg && isNumSeg minorSeg then
      String.mk (claudeSeg ++ '-' :: familySeg ++ '-' :: majorSeg ++ '.' :: minorSeg)
    else model
  | _ => model

end OBC

namespace OBC

/-! ## Prefix lemmas for `strStartsWith` -/

theorem isPrefixOf_append_self (l t : List Char) : l.isPrefixOf (l ++ t) = true := by
  induction l with
  | nil => simp [List.isPrefixOf]
  | cons c cs ih => simp [List.isPrefixOf, ih]

theorem isPrefixOf_append_of_not_comparable (a b t : List Char)
    (h1 : a.isPrefixOf b = false) (h2 : b.isPrefixOf a = false) :
    a.isPrefixOf (b ++ t) = false := by
  induction a generalizing b with
  | nil => simp [List.isPrefixOf] at h1
  | cons x xs ih =>
    cases b with
    | nil => simp [List.isPrefixOf] at h2
    | cons y ys =>
      simp only [List.cons_append, List.isPrefixOf, Bool.and_eq_false_iff] at h1 h2 ⊢
      rcases h1 with h1 | h1
      · exact Or.inl h1
      · rcases h2 with h2 | h2
        · left
          by_cases hxy : x = y
          · subst hxy; simp at h2
          · simpa using hxy
        · exact Or.inr (ih ys h1 h2)

theorem strStartsWith_append_self (p t : String) :
    strStartsWith (p ++ t) p = true := by
  simp only [strStartsWith, String.data_append]
  exact isPrefixOf_append_self p.data t.data

theorem strStartsWith_append_ne (a b t : String)
    (h1 : a.data.isPrefixOf b.data = false) (h2 : b.data.isPrefixOf a.data = false) :
    strStartsWith (b ++ t) a = false := by
  simp only [strStartsWith, String.data_append]
  exact isPrefixOf_append_of_not_comparable a.data b.data t.data h1 h2

theorem mapModelToCopilot_cases (x : String) :
    mapModelToCopilot x = x ∨ mapModelToCopilot x ∈ copilotPrefixTable.map Prod.snd := by
  unfold mapModelToCopilot
  repeat' split
  all_goals simp [copilotPrefixTable]

end OBC

namespace OBC

/-- C4: model-id canonicalization is idempotent: canonicalizing an
already-canonicalized id changes nothing, for every input string. -/
theorem mapModelToCopilot_idempotent (x : String) :
    mapModelToCopilot (mapModelToCopilot x) = mapModelToCopilot x := by
  rcases mapModelToCopilot_cases x with h | h
  · rw [h]; exact h
  · simp only [copilotPrefixTable, List.map, List.mem_cons, List.not_mem_nil, or_false] at h
    rcases h with h | h | h | h | h <;> rw [h] <;> decide

/-- C3 counterexample: `"claude-haiku-4-6"` has the claimed shape
`claude-<family>-<major>-<minor>` (family `haiku`, major `4`, minor `6`),
so the claim predicts the output `"claude-haiku-4.6"`; the source's
`mapModelToCopilot` returns it unchanged, because `claude-haiku-4-6` is not
among the five hard-coded prefixes. -/
theorem mapModelToCopilot_not_general_counterexample :
    mapModelToCopilot "claude-haiku-4-6" = "claude-haiku-4-6" ∧
    specCanonicalize "claude-haiku-4-6" = "claude-haiku-4.6" ∧
    mapModelToCopilot "claude-haiku-4-6" ≠ specCanonicalize "claude-haiku-4-6" :=
  ⟨by decide, by decide, by decide⟩

/-- C3 (amended): `mapModelToCopilot` rewrites exactly the five hard-coded
prefixes of `copilotPrefixTable` — any id extending one of them maps to the
corresponding dotted id, any id starting with none of them passes through
unchanged — and in particular `claude-opus-4-6-fast ↦ claude-opus-4.6`. -/
theorem mapModelToCopilot_spec :
    (∀ pre dot, (pre, dot) ∈ copilotPrefixTable →
      ∀ suffix, mapModelToCopilot (pre ++ suffix) = dot) ∧
    (∀ s, (∀ pd ∈ copilotPrefixTable, strStartsWith s pd.1 = false) →
      mapModelToCopilot s = s) ∧
    mapModelToCopilot "claude-opus-4-6-fast" = "claude-opus-4.6" := by
  refine ⟨?_, ?_, by decide⟩
  · intro pre dot hmem suffix
    simp only [copilotPrefixTable, List.mem_cons, List.not_mem_nil, or_false,
      Prod.mk.injEq] at hmem
    have n1 := fun t => strStartsWith_append_ne "claude-opus-4-6" "claude-sonnet-4-6" t
      (by decide) (by decide)
    have n2 := fun t => strStartsWith_append_ne "claude-opus-4-6" "claude-opus-4-5" t
      (by decide) (by decide)
    have n3 := fun t => strStartsWith_append_ne "claude-sonnet-4-6" "claude-opus-4-5" t
      (by decide) (by decide)
    have n4 := fun t => strStartsWith_append_ne "claude-opus-4-6" "claude-sonnet-4-5" t
      (by decide) (by decide)
    have n5 := fun t => strStartsWith_append_ne "claude-sonnet-4-6" "claude-sonnet-4-5" t
      (by decide) (by decide)
    have n6 := fun t => strStartsWith_append_ne "claude-opus-4-5" "claude-sonnet-4-5" t
      (by decide) (by decide)
    have n7 := fun t => strStartsWith_append_ne "claude-opus-4-6" "claude-haiku-4-5" t
      (by decide) (by decide)
    have n8 := fun t => strStartsWith_append_ne "claude-sonnet-4-6" "claude-haiku-4-5" t
      (by decide) (by decide)
    have n9 := fun t => strStartsWith_append_ne "claude-opus-4-5" "claude-haiku-4-5" t
      (by decide) (by decide)
    have n10 := fun t => strStartsWith_append_ne "claude-sonnet-4-5" "claude-haiku-4-5" t
      (by decide) (by decide)
    rcases hmem with ⟨h1, h2⟩ | ⟨h1, h2⟩ | ⟨h1, h2⟩ | ⟨h1, h2⟩ | ⟨h1, h2⟩ <;>
      subst h1 <;> subst h2 <;>
      simp [mapModelToCopilot, strStartsWith_append_self,
        n1, n2, n3, n4, n5, n6, n7, n8, n9, n10]
  · intro s h
    have h1 := h ("claude-opus-4-6", "claude-opus-4.6") (by simp [copilotPrefixTable])
    have h2 := h ("claude-sonnet-4-6", "claude-sonnet-4.6") (by simp [copilotPrefixTable])
    have h3 := h ("claude-opus-4-5", "claude-opus-4.5") (by simp [copilotPrefixTable])
    have h4 := h ("claude-sonnet-4-5", "claude-sonnet-4.5") (by simp [copilotPrefixTable])
    have h5 := h ("claude-haiku-4-5", "claude-haiku-4.5") (by simp [copilotPrefixTable])
    simp only at h1 h2 h3 h4 h5
    simp [mapModelToCopilot, h1, h2, h3, h4, h5]

/-- C3 witness: the amended theorem applied at the prefix
`claude-opus-4-6` with suffix `-fast`. -/
theorem mapModelToCopilot_spec_witness :
    mapModelToCopilot ("claude-opus-4-6" ++ "-fast") = "claude-opus-4.6" :=
  mapModelToCopilot_spec.1 "claude-opus-4-6" "claude-opus-4.6" (by decide) "-fast"

end OBC

namespace OBC

/-! ## Native conversational schema (`translations.ts`, `types.ts`)

`J` is the abstract type of JSON values carried in tool inputs / schemas;
its operations (`JSON.parse` / `JSON.stringify` / the `{raw: s}` fallback
object) are supplied by a `JsonOps` record. -/

/-- A content block of the native (Anthropic-style) schema. -/
inductive NativeBlock (J : Type) where
  | text (text : String)
  | tool_use (id : String) (name : String) (input : J)
  | tool_result (tool_use_id : String) (content : String ⊕ J)
deriving DecidableEq

/-- Message content: plain string or an ordered block sequence. -/
inductive MsgContent (J : Type) where
  | str (s : String)
  | blocks (bs : List (NativeBlock J))
deriving DecidableEq

/-- One native conversation message. -/
structure NativeMsg (J : Type) where
  role : String
  content : MsgContent J
deriving DecidableEq

/-- The JSON operations the translators use. -/
structure JsonOps (J : Type) where
  /-- `JSON.parse`, `none` on a parse failure. -/
  parse : String → Option J
  /-- `JSON.stringify`. -/
  stringify : J → String
  /-- Builds the `\x7braw: s\x7d` fallback object (the argument is the
  original, possibly-`undefined`, arguments string). -/
  mkRaw : Option String → J

/-- Concrete JSON operations over raw strings, used for closed witnesses. -/
def strJsonOps : JsonOps String :=
  { parse := fun s => some s
    stringify := fun s => s
    mkRaw := fun o => jsShow o }

/-! ## Chat-style (OpenAI) schema -/

/-- The `function` member of a chat-style tool call. -/
structure ChatFunction where
  name : String
  arguments : Option String
deriving DecidableEq

/-- A chat-style tool call. The constant `type: 'function'` discriminator
carries no information and is omitted. -/
structure ChatToolCall where
  id : String
  function : ChatFunction
deriving DecidableEq

/-- A chat-style message, both request- and response-side. `content = none`
models both an absent field and JS `null`; `tool_calls = []` models an
absent array (the two are indistinguishable to every consumer in the
source). -/
structure ChatMessage where
  role : String
  content : Option String := none
  tool_calls : List ChatToolCall := []
  tool_call_id : Option String := none
deriving DecidableEq

/-- One element of a chat-style response's `choices` array. -/
structure ChatChoice where
  message : Option ChatMessage := none
  finish_reason : Option String := none
deriving DecidableEq

/-- Chat-style response usage counters. -/
structure ChatUsage where
  prompt_tokens : Option Nat := none
  completion_tokens : Option Nat := none
deriving DecidableEq

/-- A chat-style completion response (the parts the translator reads). -/
structure ChatResponse where
  choices : List ChatChoice := []
  usage : Option ChatUsage := none
deriving DecidableEq

/-- Usage counters of a native response. The two cache counters are present
in the normal branch of `openAIToAnthropic` and absent in its empty-choices
fallback branch. -/
structure AnthropicUsage where
  input_tokens : Nat
  output_tokens : Nat
  cache_read_input_tokens : Option Nat := none
  cache_creation_input_tokens : Option Nat := none
deriving DecidableEq

/-- A native (Anthropic-style) response message. -/
structure AnthropicResponse (J : Type) where
  id : String
  type : String
  role : String
  content : List (NativeBlock J)
  model : String
  stop_reason : String
  stop_sequence : Option String
  usage : AnthropicUsage
deriving DecidableEq

/-! ## Chat-style → native (`translations.ts`, `openAIToAnthropic`) -/

/-- `JSON.parse(arguments || '\x7b\x7d')` with the `\x7braw: arguments\x7d`
fallback on a parse failure. -/
def parseToolArgs {J : Type} (ops : JsonOps J) (arguments : Option String) : J :=
  match ops.parse (jsOrStr arguments "\x7b\x7d") with
  | some v => v
  | none => ops.mkRaw arguments

/-- `choice.message?.tool_calls`, read as a list (absent → empty). -/
def choiceToolCalls (choice : ChatChoice) : List ChatToolCall :=
  match choice.message with
  | some m => m.tool_calls
  | none => []

/-- `translations.ts` / `openAIToAnthropic`: translate a chat-style
completion response to the native schema. `freshId` stands for the random
hex tail of the generated `msg_…` id. -/
def openAIToAnthropic {J : Type} (ops : JsonOps J) (freshId : String)
    (response : ChatResponse) (originalModel : String) : AnthropicResponse J :=
  match response.choices.head? with
  | none =>
    { id := "msg_" ++ freshId
      type := "message"
      role := "assistant"
      content := [NativeBlock.text "(empty response from model)"]
      model := originalModel
      stop_reason := "end_turn"
      stop_sequence := none
      usage := { input_tokens := 0, output_tokens := 0 } }
  | some choice =>
    let msgContent : Option String := choice.message.bind (fun m => m.content)
    let textBlocks : List (NativeBlock J) :=
      if jsFalsyStr msgContent then [] else [NativeBlock.text (msgContent.getD "")]
    let toolCalls : List ChatToolCall := choiceToolCalls choice
    let toolUseBlocks : List (NativeBlock J) :=
      toolCalls.map (fun tc =>
        NativeBlock.tool_use tc.id tc.function.name (parseToolArgs ops tc.function.arguments))
    let content0 := textBlocks ++ toolUseBlocks
    let content := if content0.isEmpty then [NativeBlock.text ""] else content0
    let fr := choice.finish_reason
    let stop_reason : String :=
      if fr = some "tool_calls" ∨ fr = some "stop" then
        if toolCalls.length > 0 then "tool_use" else "end_turn"
      else if fr = some "length" then "max_tokens"
      else "end_turn"
    { id := "msg_" ++ freshId
      type := "message"
      role := "assistant"
      content := content
      model := originalModel
      stop_reason := stop_reason
      stop_sequence := none
      usage :=
        { input_tokens := (response.usage.bind (fun u => u.prompt_tokens)).getD 0
          output_tokens := (response.usage.bind (fun u => u.completion_tokens)).getD 0
          cache_read_input_tokens := some 0
          cache_creation_input_tokens := some 0 } }

/-! ## Native → chat-style (`translations.ts`, `anthropicToOpenAI`) -/

/-- The `system` value of a native request: a string, an array of objects
with an optional `text` field, or anything else (flattened via `String(…)`). -/
inductive SystemVal where
  | str (s : String)
  | arr (blocks : List (Option String))
  | other (stringRepr : String)
deriving DecidableEq

/-- JS truthiness of `body.system` (`undefined` and `""` are falsy; arrays
and other objects are truthy). -/
def jsFalsySystem : Option SystemVal → Bool
  | none => true
  | some (SystemVal.str s) => s = ""
  | some _ => false

/-- Flatten a system value to one string
(`b.text || ''` joined with newlines for arrays). -/
def flattenSystem : SystemVal → String
  | SystemVal.str s => s
  | SystemVal.arr blocks => String.intercalate "\n" (blocks.map (fun b => jsOrStr b ""))
  | SystemVal.other r => r

/-- A native tool-catalog entry. -/
structure ToolDef (J : Type) where
  name : String
  description : String
  input_schema : J

/-- The `function` member of a chat-style tool-catalog entry. -/
structure OAIFunctionDef (J : Type) where
  name : String
  description : String
  parameters : J

/-- A chat-style tool-catalog entry (`type: 'function'` omitted as above). -/
structure OAIToolDef (J : Type) where
  function : OAIFunctionDef J

/-- A chat-style completion request. The constant `temperature: 0.5` and
`stream: false` fields carry no translated information and are omitted
(the former is a floating-point literal). -/
structure OAIRequest (J : Type) where
  model : String
  messages : List ChatMessage
  max_tokens : Nat
  tools : Option (List (OAIToolDef J)) := none

/-- A native `tool_result` block's content on the chat-style wire:
a string passes through, anything else is `JSON.stringify`-ed. -/
def toolResultContent {J : Type} (ops : JsonOps J) : String ⊕ J → String
  | Sum.inl s => s
  | Sum.inr j => ops.stringify j

/-- The `tool`-role message a `tool_result` block becomes
(`none` for every other block kind). -/
def toolResultMessage? {J : Type} (ops : JsonOps J) : NativeBlock J → Option ChatMessage
  | NativeBlock.tool_result tid c =>
    some { role := "tool", tool_call_id := some tid,
           content := some (toolResultContent ops c) }
  | _ => none

/-- Does a block have type `tool_result`? -/
def isToolResultBlock {J : Type} : NativeBlock J → Bool
  | NativeBlock.tool_result _ _ => true
  | _ => false

/-- Assembling the single chat-style message of a turn without
`tool_result` blocks, with the source's JS-truthiness dance on `content`. -/
def mkTurnMessage (role : String) (textParts : List String)
    (toolCalls : List ChatToolCall) : ChatMessage :=
  let c0 : Option String :=
    if textParts.isEmpty then none else some (String.intercalate "\n" textParts)
  let c1 : Option String := if !toolCalls.isEmpty && jsFalsyStr c0 then none else c0
  let c2 : Option String := if jsFalsyStr c1 && toolCalls.isEmpty then some "" else c1
  { role := role, content := c2, tool_calls := toolCalls }

/-- The body of `anthropicToOpenAI`'s per-message loop: translate one
native message into the chat-style messages it contributes. -/
def translateMsg {J : Type} (ops : JsonOps J) (msg : NativeMsg J) : List ChatMessage :=
  match msg.content with
  | MsgContent.str s => [{ role := msg.role, content := some s }]
  | MsgContent.blocks bs =>
    let textParts : List String := bs.filterMap (fun b =>
      match b with | NativeBlock.text t => some t | _ => none)
    let toolCalls : List ChatToolCall := bs.filterMap (fun b =>
      match b with
      | NativeBlock.tool_use id name input =>
        some { id := id,
               function := { name := name, arguments := some (ops.stringify input) } }
      | _ => none)
    let toolResults : List ChatMessage := bs.filterMap (toolResultMessage? ops)
    if toolResults.isEmpty then [mkTurnMessage msg.role textParts toolCalls]
    else toolResults

/-- A native (Anthropic-style) request body. -/
structure AnthropicRequest (J : Type) where
  model : String
  system : Option SystemVal := none
  messages : List (NativeMsg J) := []
  tools : Option (List (ToolDef J)) := none
  max_tokens : Option Nat := none

/-- `translations.ts` / `anthropicToOpenAI`: translate a native request to
a chat-style completion request. -/
def anthropicToOpenAI {J : Type} (ops : JsonOps J) (body : AnthropicRequest J) :
    OAIRequest J :=
  let sysMessages : List ChatMessage :=
    if jsFalsySystem body.system then []
    else [{ role := "system",
            content := some (flattenSystem (body.system.getD (SystemVal.str ""))) }]
  let messages := sysMessages ++ body.messages.flatMap (translateMsg ops)
  let tools : Option (List (OAIToolDef J)) :=
    match body.tools with
    | some ts =>
      if ts.isEmpty then none
      else some (ts.map (fun t =>
        { function := { name := t.name, description := t.description,
                        parameters := t.input_schema } }))
    | none => none
  { model := mapModelToCopilot body.model
    messages := messages
    max_tokens := jsOrNat body.max_tokens 4096
    tools := tools }

end OBC

namespace OBC

/-! ## Claims on the translators -/

/-- C7: a chat-style response with no first choice maps to the fixed
fallback text block, `end_turn`, and zero usage. -/
theorem openAIToAnthropic_empty_choices {J : Type} (ops : JsonOps J)
    (freshId : String) (response : ChatResponse) (originalModel : String)
    (h : response.choices = []) :
    (openAIToAnthropic ops freshId response originalModel).content
      = [NativeBlock.text "(empty response from model)"] ∧
    (openAIToAnthropic ops freshId response originalModel).stop_reason = "end_turn" ∧
    (openAIToAnthropic ops freshId response originalModel).usage.input_tokens = 0 ∧
    (openAIToAnthropic ops freshId response originalModel).usage.output_tokens = 0 := by
  simp [openAIToAnthropic, h]

/-- C7 witness: the theorem evaluated at a concrete response whose
`choices` array is empty. -/
theorem openAIToAnthropic_empty_choices_witness :
    (openAIToAnthropic strJsonOps "abc" {} "claude-sonnet-4-6").content
      = [NativeBlock.text "(empty response from model)"] ∧
    (openAIToAnthropic strJsonOps "abc" {} "claude-sonnet-4-6").stop_reason = "end_turn" ∧
    (openAIToAnthropic strJsonOps "abc" {} "claude-sonnet-4-6").usage.input_tokens = 0 ∧
    (openAIToAnthropic strJsonOps "abc" {} "claude-sonnet-4-6").usage.output_tokens = 0 :=
  openAIToAnthropic_empty_choices strJsonOps "abc" {} "claude-sonnet-4-6" rfl

/-- C6 counterexample: a first choice with `finish_reason = "stop"` and a
non-empty `tool_calls` array. The claim says `"stop"` yields `end_turn`;
the source maps it to `tool_use` (it treats `"stop"` and `"tool_calls"`
identically whenever tool calls are present). -/
def c6Response : ChatResponse :=
  { choices :=
    [{ message := some
        { role := "assistant"
          content := some "calling a tool"
          tool_calls := [{ id := "call_1",
                           function := { name := "f", arguments := some "\x7b\x7d" } }] }
       finish_reason := some "stop" }] }

/-- C6 counterexample: on `c6Response` (finish reason `"stop"`, one tool
call) the source returns `stop_reason = "tool_use"`, not the `"end_turn"`
the claim predicts. -/
theorem openAIToAnthropic_stop_with_tools_counterexample :
    (openAIToAnthropic strJsonOps "abc" c6Response "m").stop_reason = "tool_use" ∧
    (openAIToAnthropic strJsonOps "abc" c6Response "m").stop_reason ≠ "end_turn" :=
  ⟨by decide, by decide⟩

/-- C6 (amended): for a response with a first choice, `finish_reason`
`"tool_calls"` **or** `"stop"` with a non-empty `tool_calls` array yields
`tool_use`; `"tool_calls"` or `"stop"` with no tool calls yields
`end_turn`; `"length"` yields `max_tokens`; anything else yields
`end_turn`. -/
theorem openAIToAnthropic_stop_reason {J : Type} (ops : JsonOps J)
    (freshId : String) (response : ChatResponse) (originalModel : String)
    (choice : ChatChoice) (h : response.choices.head? = some choice) :
    ((choice.finish_reason = some "tool_calls" ∨ choice.finish_reason = some "stop") →
      choiceToolCalls choice ≠ [] →
      (openAIToAnthropic ops freshId response originalModel).stop_reason = "tool_use") ∧
    ((choice.finish_reason = some "tool_calls" ∨ choice.finish_reason = some "stop") →
      choiceToolCalls choice = [] →
      (openAIToAnthropic ops freshId response originalModel).stop_reason = "end_turn") ∧
    (choice.finish_reason = some "length" →
      (openAIToAnthropic ops freshId response originalModel).stop_reason = "max_tokens") ∧
    (choice.finish_reason ≠ some "tool_calls" → choice.finish_reason ≠ some "stop" →
      choice.finish_reason ≠ some "length" →
      (openAIToAnthropic ops freshId response originalModel).stop_reason = "end_turn") := by
  refine ⟨?_, ?_, ?_, ?_⟩
  · intro hfr hne
    simp only [openAIToAnthropic, h]
    rw [if_pos hfr, if_pos (by simpa [List.length_pos] using hne)]
  · intro hfr hnil
    simp only [openAIToAnthropic, h]
    rw [if_pos hfr, if_neg (by simp [hnil])]
  · intro hfr
    simp only [openAIToAnthropic, h]
    rw [if_neg (by simp [hfr]), if_pos hfr]
  · intro h1 h2 h3
    simp only [openAIToAnthropic, h]
    rw [if_neg (by simp [h1, h2]), if_neg h3]

/-- C6 witness: the amended theorem at a concrete response with
`finish_reason = "length"`. -/
theorem openAIToAnthropic_stop_reason_witness :
    (openAIToAnthropic strJsonOps "abc"
      { choices := [{ finish_reason := some "length" }] } "m").stop_reason
      = "max_tokens" :=
  (openAIToAnthropic_stop_reason strJsonOps "abc"
    { choices := [{ finish_reason := some "length" }] } "m"
    { finish_reason := some "length" } rfl).2.2.1 rfl

/-- `toolResultMessage?` hits exactly the `tool_result` blocks. -/
theorem toolResultMessage?_isSome {J : Type} (ops : JsonOps J) (b : NativeBlock J) :
    (toolResultMessage? ops b).isSome = isToolResultBlock b := by
  cases b <;> rfl

theorem length_filterMap_eq_countP {α β : Type} (f : α → Option β) (p : α → Bool)
    (hf : ∀ a, (f a).isSome = p a) (l : List α) :
    (l.filterMap f).length = l.countP p := by
  induction l with
  | nil => rfl
  | cons a l ih =>
    rw [List.filterMap_cons, List.countP_cons]
    cases hfa : f a with
    | none =>
      have : p a = false := by rw [← hf a, hfa]; rfl
      simp [this, ih]
    | some b =>
      have : p a = true := by rw [← hf a, hfa]; rfl
      simp [this, ih]

/-- C10: a native message whose block content contains at least one
`tool_result` block contributes exactly one `tool`-role chat message per
`tool_result` block (in order), and nothing else: the `text` and
`tool_use` blocks of the same message are discarded. -/
theorem translateMsg_tool_results {J : Type} (ops : JsonOps J)
    (msg : NativeMsg J) (bs : List (NativeBlock J))
    (hc : msg.content = MsgContent.blocks bs)
    (h : bs.any isToolResultBlock = true) :
    translateMsg ops msg = bs.filterMap (toolResultMessage? ops) ∧
    (translateMsg ops msg).length = bs.countP (fun b => isToolResultBlock b) ∧
    (∀ m ∈ translateMsg ops msg, m.role = "tool" ∧ m.tool_calls = []) := by
  have hne : bs.filterMap (toolResultMessage? ops) ≠ [] := by
    rw [List.any_eq_true] at h
    obtain ⟨b, hb, htr⟩ := h
    cases b with
    | tool_result tid c =>
      intro hnil
      have : (⟨"tool", some (toolResultContent ops c), [], some tid⟩ : ChatMessage)
          ∈ bs.filterMap (toolResultMessage? ops) :=
        List.mem_filterMap.mpr ⟨NativeBlock.tool_result tid c, hb, rfl⟩
      rw [hnil] at this
      exact List.not_mem_nil _ this
    | text t => simp [isToolResultBlock] at htr
    | tool_use i n inp => simp [isToolResultBlock] at htr
  have heq : translateMsg ops msg = bs.filterMap (toolResultMessage? ops) := by
    simp only [translateMsg, hc]
    rw [if_neg (by simpa [List.isEmpty_iff] using hne)]
  refine ⟨heq, ?_, ?_⟩
  · rw [heq]
    exact length_filterMap_eq_countP _ _ (toolResultMessage?_isSome ops) bs
  · intro m hm
    rw [heq] at hm
    obtain ⟨b, _, hbm⟩ := List.mem_filterMap.mp hm
    cases b with
    | tool_result tid c =>
      simp only [toolResultMessage?, Option.some.injEq] at hbm
      rw [← hbm]
      exact ⟨rfl, rfl⟩
    | text t => simp [toolResultMessage?] at hbm
    | tool_use i n inp => simp [toolResultMessage?] at hbm

/-- The concrete block list of the C10 witness. -/
def c10Blocks : List (NativeBlock String) :=
  [NativeBlock.text "note",
   NativeBlock.tool_use "c0" "f" "1",
   NativeBlock.tool_result "c1" (Sum.inl "out1"),
   NativeBlock.tool_result "c2" (Sum.inr "2")]

/-- C10 witness: a concrete message holding a text block, a tool-use block
and two tool-result blocks contributes exactly the two `tool`-role
messages. -/
theorem translateMsg_tool_results_witness :
    translateMsg strJsonOps { role := "user", content := MsgContent.blocks c10Blocks }
      = [{ role := "tool", content := some "out1", tool_call_id := some "c1" },
         { role := "tool", content := some "2", tool_call_id := some "c2" }] := by
  rw [(translateMsg_tool_results strJsonOps
    { role := "user", content := MsgContent.blocks c10Blocks }
    c10Blocks rfl (by decide)).1]
  decide

end OBC

namespace OBC

/-! ## Credential/token gateway (`proxy-server.ts`) -/

/-- The short-lived Copilot bearer token. -/
structure CopilotToken where
  token : String
  expires_at : Int
  refresh_in : Int
  chat_enabled : Bool
deriving DecidableEq

/-- The proxy's module-level mutable state: the long-lived GitHub
credential and the cached bearer token. -/
structure ProxyState where
  githubToken : String
  copilotToken : Option CopilotToken
deriving DecidableEq

/-- `proxy-server.ts` / `refreshCopilotToken`. The token-issuance HTTP
exchange is the parameter `exchange` (keyed by the stored credential);
its `.error` carries the thrown message for a non-success status. Throws
(`.error`) if no credential is configured; on a failed exchange the cache
is cleared before the error propagates; on success the cached token is
replaced wholesale. -/
def refreshCopilotToken (exchange : String → Except String CopilotToken)
    (st : ProxyState) : ProxyState × Except String Unit :=
  if st.githubToken = "" then (st, Except.error "No GitHub token configured")
  else
    match exchange st.githubToken with
    | Except.error e => ({ st with copilotToken := none }, Except.error e)
    | Except.ok tok => ({ st with copilotToken := some tok }, Except.ok ())

/-- `proxy-server.ts` / `getCopilotJWT`: return the cached bearer token,
refreshing first when there is none or when `now` is within 60 seconds of
its expiry. -/
def getCopilotJWT (exchange : String → Except String CopilotToken) (now : Int)
    (st : ProxyState) : ProxyState × Except String String :=
  let needsRefresh : Bool :=
    match st.copilotToken with
    | none => true
    | some t => decide (now ≥ t.expires_at - 60)
  let res := if needsRefresh then refreshCopilotToken exchange st else (st, Except.ok ())
  match res.2 with
  | Except.error e => (res.1, Except.error e)
  | Except.ok _ =>
    match res.1.copilotToken with
    | some t => (res.1, Except.ok t.token)
    | none => (res.1, Except.error "TypeError: copilotToken is null")

/-- The HTTP outcome of `POST /auth/github-token`. -/
inductive AuthPostResult where
  | badRequest (error : String)
  | success (chatEnabled : Bool)
  | unauthorized (error : String)
deriving DecidableEq

/-- `proxy-server.ts` / `app.post('/auth/github-token')`: store the trimmed
credential, invalidate the cached bearer token, eagerly verify by fetching
a JWT; on failure roll the credential back to empty and answer 401 with the
reason. -/
def postAuthGithubToken (exchange : String → Except String CopilotToken)
    (now : Int) (st : ProxyState) (reqToken : Option String) :
    ProxyState × AuthPostResult :=
  match reqToken with
  | none => (st, AuthPostResult.badRequest "Missing \"token\" in request body")
  | some t =>
    if t = "" then (st, AuthPostResult.badRequest "Missing \"token\" in request body")
    else
      let st1 : ProxyState := { githubToken := jsTrim t, copilotToken := none }
      match getCopilotJWT exchange now st1 with
      | (st2, Except.ok _) =>
        (st2, AuthPostResult.success
          (match st2.copilotToken with
           | some tok => tok.chat_enabled
           | none => false))
      | (st2, Except.error e) =>
        ({ st2 with githubToken := "" }, AuthPostResult.unauthorized e)

/-- C8: atomic accept semantics of credential submission — when the eager
verification exchange fails, the stored credential is rolled back to empty,
the cached bearer token is `none`, and the exchange's failure reason is the
401 response body, whatever the previous state was. -/
theorem postAuthGithubToken_rollback (exchange : String → Except String CopilotToken)
    (now : Int) (st : ProxyState) (t e : String)
    (hne : jsTrim t ≠ "") (hex : exchange (jsTrim t) = Except.error e) :
    postAuthGithubToken exchange now st (some t)
      = ({ githubToken := "", copilotToken := none }, AuthPostResult.unauthorized e) := by
  have ht : t ≠ "" := by
    intro h
    apply hne
    rw [h]
    rfl
  simp only [postAuthGithubToken, if_neg ht]
  simp [getCopilotJWT, refreshCopilotToken, hne, hex]

/-- C8 witness: a concrete submission whose exchange is refused. -/
theorem postAuthGithubToken_rollback_witness :
    postAuthGithubToken (fun _ => Except.error "Copilot token exchange failed (401): bad credentials")
      0 { githubToken := "ghp_old", copilotToken := none } (some " ghp_new ")
      = ({ githubToken := "", copilotToken := none },
         AuthPostResult.unauthorized "Copilot token exchange failed (401): bad credentials") :=
  postAuthGithubToken_rollback _ 0 _ " ghp_new "
    "Copilot token exchange failed (401): bad credentials" (by decide) rfl

end OBC

namespace OBC

/-! ## Tool-use loop engine (`src/agent-worker.ts`, `handleInvoke`)

The backend call (`fetch` + response decode) is the parameter
`backend : message history → ApiResult`; the injected tool executor
(`executeTool` in the source) is the parameter
`exec : name → input → output string`. Observability events (`post`/`log`)
carry no state and are not modelled; the run's outcome, its iteration
count, and the synthetic nudge messages it appended are returned. -/

/-- A decoded backend response, as the loop reads it. -/
structure ApiResult (J : Type) where
  stop_reason : String
  content : List (NativeBlock J)
deriving DecidableEq

/-- How a loop run ends: a posted `response` event carrying the final
text, or the posted fixed cap-warning text after the iteration cap. -/
inductive RunOutcome where
  | response (text : String)
  | capWarning
deriving DecidableEq

/-- The fixed cap-warning text posted when the iteration cap is reached. -/
def capWarningText : String :=
  "⚠️ Reached maximum tool-use iterations (25). Stopping to avoid excessive API usage."

/-- `maxIterations` — the loop's safety limit. -/
def maxIterations : Nat := 25

/-- `MAX_AUTO_CONTINUES` — the nudge budget. -/
def MAX_AUTO_CONTINUES : Nat := 5

/-- The escalating nudge messages. -/
def nudgeMessages : List String :=
  ["Continue — use the tools to complete the task.",
   "You must use a tool now. Pick the most relevant one and invoke it.",
   "Your next message MUST be a tool call, not text."]

/-- Drop everything up to and including the first occurrence of `close`
in `l` (`none` if `close` does not occur). -/
def dropThroughClose (close : List Char) : List Char → Option (List Char)
  | [] => none
  | c :: cs =>
    if close.isPrefixOf (c :: cs) then some (List.drop close.length (c :: cs))
    else dropThroughClose close cs

/-- One global-regex pass of
`text.replace(/<internal>[\s\S]*?<\/internal>/g, '')`: whenever
`<internal>` starts here and a `</internal>` follows, drop the minimal
span and continue after it; otherwise keep the character. `fuel` bounds
the recursion (one unit per character position, so the character count
suffices). -/
def stripInternalAux (fuel : Nat) (l : List Char) : List Char :=
  match fuel, l with
  | 0, l => l
  | _ + 1, [] => []
  | fuel + 1, c :: cs =>
    if "<internal>".data.isPrefixOf (c :: cs) then
      match dropThroughClose "</internal>".data (List.drop "<internal>".data.length (c :: cs)) with
      | some rest => stripInternalAux fuel rest
      | none => c :: stripInternalAux fuel cs
    else c :: stripInternalAux fuel cs

/-- `text.replace(/<internal>[\s\S]*?<\/internal>/g, '')`. -/
def stripInternal (s : String) : String :=
  String.mk (stripInternalAux s.data.length s.data)

/-- `result.content.filter(b => b.type === 'text').map(b => b.text).join('')`. -/
def extractText {J : Type} (content : List (NativeBlock J)) : String :=
  String.join (content.filterMap (fun b =>
    match b with
    | NativeBlock.text t => some t
    | _ => none))

/-- The `cleaned` value of the loop's non-tool branch: concatenated text
blocks with `<internal>…</internal>` spans removed, trimmed. -/
def cleanedText {J : Type} (content : List (NativeBlock J)) : String :=
  jsTrim (stripInternal (extractText content))

/-- The `tool_result` blocks of the user message appended after a tool
round: one per `tool_use` block, in order, each carrying the executor's
output truncated to 100 000 characters. -/
def toolResultsOf {J : Type} (exec : String → J → String)
    (content : List (NativeBlock J)) : List (NativeBlock J) :=
  content.filterMap (fun b =>
    match b with
    | NativeBlock.tool_use id name input =>
      some (NativeBlock.tool_result id (Sum.inl (strSlice (exec name input) 100000)))
    | _ => none)

/-- The `while (iterations < maxIterations)` loop of `handleInvoke`.
`fuel` is the number of loop-condition checks left (`maxIterations`
minus the iterations already performed); `iterations`, `hasUsedTools`,
`autoContinueCount` and `messages` are the loop's mutable state; `nudges`
accumulates the synthetic nudge user-message texts appended so far.
Returns the posted outcome, the final iteration count, and the nudges. -/
def runLoopSt {J : Type} (backend : List (NativeMsg J) → ApiResult J)
    (exec : String → J → String) :
    Nat → Nat → Bool → Nat → List (NativeMsg J) → List String →
    RunOutcome × Nat × List String
  | 0, iterations, _, _, _, nudges => (RunOutcome.capWarning, iterations, nudges)
  | fuel + 1, iterations0, hasUsedTools0, auto0, messages, nudges =>
    let iterations := iterations0 + 1
    let result := backend messages
    if result.stop_reason = "tool_use" then
      -- first tool use resets the nudge budget
      let auto := if hasUsedTools0 then auto0 else 0
      let toolResults := toolResultsOf exec result.content
      runLoopSt backend exec fuel iterations true auto
        (messages ++ [{ role := "assistant", content := MsgContent.blocks result.content },
                      { role := "user", content := MsgContent.blocks toolResults }])
        nudges
    else
      let cleaned := cleanedText result.content
      let isEmptyResponse := cleaned = ""
      let shouldNudge :=
        auto0 < MAX_AUTO_CONTINUES ∧ (hasUsedTools0 = false ∨ isEmptyResponse)
      if iterations < maxIterations ∧ shouldNudge then
        let auto := auto0 + 1
        let nudgeIdx := min (auto - 1) (nudgeMessages.length - 1)
        let nudgeText :=
          if isEmptyResponse then
            "You did not provide a response or call a tool. " ++ nudgeMessages.getD nudgeIdx ""
          else nudgeMessages.getD nudgeIdx ""
        runLoopSt backend exec fuel iterations hasUsedTools0 auto
          (messages ++ [{ role := "assistant", content := MsgContent.blocks result.content },
                        { role := "user", content := MsgContent.str nudgeText }])
          (nudges ++ [nudgeText])
      else
        (RunOutcome.response
          (if cleaned = "" then (if iterations > 1 then "" else "(no response)") else cleaned),
         iterations, nudges)

/-- `handleInvoke`'s loop, started as the source does: zero iterations, no
tools used yet, nudge counter reset, the invocation's message history. -/
def handleInvoke {J : Type} (backend : List (NativeMsg J) → ApiResult J)
    (exec : String → J → String) (messages : List (NativeMsg J)) :
    RunOutcome × Nat × List String :=
  runLoopSt backend exec maxIterations 0 false 0 messages []

/-- The text a run outcome posts in its `response` event. -/
def postedText : RunOutcome → String
  | RunOutcome.response t => t
  | RunOutcome.capWarning => capWarningText

end OBC

namespace OBC

/-! ## Claims on the loop engine -/

theorem runLoopSt_always_tool_use {J : Type}
    (backend : List (NativeMsg J) → ApiResult J) (exec : String → J → String)
    (hb : ∀ msgs, (backend msgs).stop_reason = "tool_use") :
    ∀ fuel iterations hasUsedTools auto messages nudges,
      runLoopSt backend exec fuel iterations hasUsedTools auto messages nudges
        = (RunOutcome.capWarning, iterations + fuel, nudges) := by
  intro fuel
  induction fuel with
  | zero => intro iterations _ _ _ _; simp [runLoopSt]
  | succ fuel ih =>
    intro iterations hut auto messages nudges
    simp only [runLoopSt]
    rw [if_pos (hb messages), ih]
    have harith : iterations + 1 + fuel = iterations + (fuel + 1) := by omega
    rw [harith]

/-- C1: against a backend that always signals tool use, the loop performs
exactly 25 iterations — never 26 — appends no nudges, and terminates by
posting the fixed cap-warning text instead of a normal result. -/
theorem handleInvoke_cap {J : Type} (backend : List (NativeMsg J) → ApiResult J)
    (exec : String → J → String) (messages : List (NativeMsg J))
    (hb : ∀ msgs, (backend msgs).stop_reason = "tool_use") :
    handleInvoke backend exec messages = (RunOutcome.capWarning, 25, []) ∧
    postedText (handleInvoke backend exec messages).1 = capWarningText := by
  have h := runLoopSt_always_tool_use backend exec hb maxIterations 0 false 0 messages []
  rw [handleInvoke, h]
  exact ⟨rfl, rfl⟩

/-- A backend that always requests one tool call (C1 witness). -/
def c1Backend : List (NativeMsg String) → ApiResult String := fun _ =>
  { stop_reason := "tool_use", content := [NativeBlock.tool_use "c1" "bash" "ls"] }

/-- C1 witness: the theorem at the concrete always-tool-use backend. -/
theorem handleInvoke_cap_witness :
    handleInvoke c1Backend (fun _ _ => "out")
        [{ role := "user", content := MsgContent.str "hi" }]
      = (RunOutcome.capWarning, 25, []) ∧
    postedText (handleInvoke c1Backend (fun _ _ => "out")
        [{ role := "user", content := MsgContent.str "hi" }]).1 = capWarningText :=
  handleInvoke_cap c1Backend (fun _ _ => "out")
    [{ role := "user", content := MsgContent.str "hi" }] (fun _ => rfl)

theorem runLoopSt_nudges_bound {J : Type}
    (backend : List (NativeMsg J) → ApiResult J) (exec : String → J → String) :
    ∀ fuel iterations hasUsedTools auto messages nudges,
      (runLoopSt backend exec fuel iterations hasUsedTools auto messages nudges).2.2.length
        ≤ nudges.length + (MAX_AUTO_CONTINUES - auto)
            + (if hasUsedTools then 0 else MAX_AUTO_CONTINUES) := by
  intro fuel
  induction fuel with
  | zero =>
    intro iterations hut auto messages nudges
    cases hut <;> simp only [runLoopSt] <;> omega
  | succ fuel ih =>
    intro iterations hut auto messages nudges
    simp only [runLoopSt]
    split
    · -- tool-use branch: `hasUsedTools` becomes true, the counter is reset
      -- on the first tool use
      refine le_trans (ih _ _ _ _ _) ?_
      cases hut <;> simp only [MAX_AUTO_CONTINUES, if_true, if_false, Bool.false_eq_true,
        ite_false, ite_true] <;> omega
    · split
      · -- nudge branch: the guard gives `auto < MAX_AUTO_CONTINUES`
        rename_i hguard
        refine le_trans (ih _ _ _ _ _) ?_
        have hauto : auto < MAX_AUTO_CONTINUES := hguard.2.1
        simp only [List.length_append, List.length_cons, List.length_nil]
        cases hut <;> simp only [MAX_AUTO_CONTINUES] at hauto ⊢ <;> omega
      · cases hut <;> simp only [] <;> omega

/-- C2 (amended): the nudge counter is capped at 5 between resets, but it
is reset once when the first tool use occurs, so the number of synthetic
nudge messages appended over a whole run is bounded by 10 (at most 5
before the first tool use and at most 5 after), not by 5. -/
theorem handleInvoke_nudges_le_ten {J : Type}
    (backend : List (NativeMsg J) → ApiResult J) (exec : String → J → String)
    (messages : List (NativeMsg J)) :
    (handleInvoke backend exec messages).2.2.length ≤ 10 := by
  have h := runLoopSt_nudges_bound backend exec maxIterations 0 false 0 messages []
  simpa [handleInvoke, MAX_AUTO_CONTINUES] using h

/-- A backend schedule (keyed by history length) that takes five initial
nudges, then requests a tool — resetting the nudge budget — then returns
an empty turn that earns a sixth nudge (C2 counterexample). -/
def c2Backend : List (NativeMsg String) → ApiResult String := fun msgs =>
  if msgs.length ≤ 9 then
    { stop_reason := "end_turn", content := [NativeBlock.text "ok"] }
  else if msgs.length = 11 then
    { stop_reason := "tool_use", content := [NativeBlock.tool_use "c1" "bash" "ls"] }
  else if msgs.length = 13 then
    { stop_reason := "end_turn", content := [] }
  else
    { stop_reason := "end_turn", content := [NativeBlock.text "done"] }

/-- C2 counterexample: a single run of the loop against `c2Backend`
appends 6 synthetic nudge messages — more than the claimed per-run total
budget of 5 — because the counter is reset when the first tool use
occurs. -/
theorem handleInvoke_six_nudges_counterexample :
    (handleInvoke c2Backend (fun _ _ => "out")
        [{ role := "user", content := MsgContent.str "hi" }]).2.2.length = 6 ∧
    ¬ (handleInvoke c2Backend (fun _ _ => "out")
        [{ role := "user", content := MsgContent.str "hi" }]).2.2.length ≤ 5 :=
  ⟨by decide, by decide⟩

/-- The nudge texts a run with no tool use and non-empty turns appends
while its counter runs from `auto` up to the budget. -/
def nudgeTail : Nat → Nat → List String
  | 0, _ => []
  | k + 1, auto =>
    nudgeMessages.getD (min auto (nudgeMessages.length - 1)) "" :: nudgeTail k (auto + 1)

theorem runLoopSt_never_tools {J : Type}
    (backend : List (NativeMsg J) → ApiResult J) (exec : String → J → String)
    (hb : ∀ msgs, (backend msgs).stop_reason ≠ "tool_use")
    (hc : ∀ msgs, cleanedText (backend msgs).content ≠ "") :
    ∀ fuel auto iterations messages nudges,
      auto ≤ MAX_AUTO_CONTINUES →
      MAX_AUTO_CONTINUES - auto < fuel →
      iterations + (MAX_AUTO_CONTINUES - auto) + 1 ≤ maxIterations →
      ∃ t, runLoopSt backend exec fuel iterations false auto messages nudges
        = (RunOutcome.response t, iterations + (MAX_AUTO_CONTINUES - auto) + 1,
           nudges ++ nudgeTail (MAX_AUTO_CONTINUES - auto) auto) := by
  intro fuel
  induction fuel with
  | zero => intro auto iterations messages nudges _ h2 _; omega
  | succ fuel ih =>
    intro auto iterations messages nudges h1 h2 h3
    simp only [MAX_AUTO_CONTINUES, maxIterations] at h1 h2 h3 ⊢
    simp only [runLoopSt, MAX_AUTO_CONTINUES, maxIterations]
    rw [if_neg (hb messages)]
    have hcl := hc messages
    by_cases hauto : auto < 5
    · split
      · obtain ⟨t, ht⟩ := ih (auto + 1) (iterations + 1)
          (messages ++
            [{ role := "assistant", content := MsgContent.blocks (backend messages).content },
             { role := "user",
               content := MsgContent.str
                 (nudgeMessages.getD (min (auto + 1 - 1) (nudgeMessages.length - 1)) "") }])
          (nudges ++ [nudgeMessages.getD (min (auto + 1 - 1) (nudgeMessages.length - 1)) ""])
          (by simp only [MAX_AUTO_CONTINUES]; omega)
          (by simp only [MAX_AUTO_CONTINUES]; omega)
          (by simp only [MAX_AUTO_CONTINUES, maxIterations]; omega)
        simp only [MAX_AUTO_CONTINUES, maxIterations] at ht
        refine ⟨t, ?_⟩
        rw [ht]
        obtain ⟨k, hk⟩ : ∃ k, 5 - auto = k + 1 := ⟨5 - auto - 1, by omega⟩
        have hk2 : 5 - (auto + 1) = k := by omega
        rw [hk, hk2]
        simp only [Prod.mk.injEq, nudgeTail, Nat.add_sub_cancel, List.append_assoc,
          List.singleton_append]
        refine ⟨trivial, by omega, trivial⟩
      · rename_i hguard
        exact absurd ⟨by omega, hauto, Or.inl (by trivial)⟩ hguard
    · split
      · rename_i hguard
        exact absurd hguard.2.1 hauto
      · have hz : 5 - auto = 0 := by omega
        refine ⟨cleanedText (backend messages).content, ?_⟩
        rw [hz, nudgeTail, List.append_nil]

/-- The five nudge texts of a run that never uses tools: the 3-tier list,
escalating through tiers 0, 1, 2 and then repeating the final tier. -/
def nudgeEscalation : List String :=
  ["Continue — use the tools to complete the task.",
   "You must use a tool now. Pick the most relevant one and invoke it.",
   "Your next message MUST be a tool call, not text.",
   "Your next message MUST be a tool call, not text.",
   "Your next message MUST be a tool call, not text."]

/-- C5: against a backend that never requests a tool and always produces a
non-empty turn, a run appends exactly the five nudges of the escalating
3-tier list — tier `min(nudgeCount, 2)` each time, so exactly 3 distinct
variants — and returns a normal response at iteration 6, once the 5-nudge
budget is exhausted. -/
theorem handleInvoke_nudge_escalation {J : Type}
    (backend : List (NativeMsg J) → ApiResult J) (exec : String → J → String)
    (messages : List (NativeMsg J))
    (hb : ∀ msgs, (backend msgs).stop_reason ≠ "tool_use")
    (hc : ∀ msgs, cleanedText (backend msgs).content ≠ "") :
    (∃ t, handleInvoke backend exec messages
      = (RunOutcome.response t, 6, nudgeEscalation)) ∧
    nudgeEscalation.dedup.length = 3 := by
  refine ⟨?_, by decide⟩
  obtain ⟨t, ht⟩ := runLoopSt_never_tools backend exec hb hc maxIterations 0 0 messages []
    (by simp [MAX_AUTO_CONTINUES]) (by simp [MAX_AUTO_CONTINUES, maxIterations])
    (by simp [MAX_AUTO_CONTINUES, maxIterations])
  refine ⟨t, ?_⟩
  rw [handleInvoke, ht]
  rfl

/-- A backend that never stops and never calls a tool (C5 witness). -/
def c5Backend : List (NativeMsg String) → ApiResult String := fun _ =>
  { stop_reason := "end_turn", content := [NativeBlock.text "working"] }

/-- C5 witness: the theorem at the concrete never-tool backend. -/
theorem handleInvoke_nudge_escalation_witness :
    (∃ t, handleInvoke c5Backend (fun _ _ => "out")
        [{ role := "user", content := MsgContent.str "hi" }]
      = (RunOutcome.response t, 6, nudgeEscalation)) ∧
    nudgeEscalation.dedup.length = 3 := by
  apply handleInvoke_nudge_escalation
  · intro msgs
    simp only [c5Backend]
    decide
  · intro msgs
    simp only [c5Backend]
    decide

end OBC

namespace OBC

/-! ## Tool executor (`src/agent-worker.ts`, `executeTool`)

All effectful collaborators (the shell emulator, the per-group file store,
the two fetch paths of the `fetch_url` tool, the indirect `eval`) are
fields of a `ToolEnv`; each returns `Except String …`, where `.error`
models a thrown exception and carries its message. The source's outer
`try/catch` is the `executeTool` wrapper around `executeToolBody`. The
`post(…)` observability events (tool activity, task-created, html-preview)
carry no return value and are not modelled; `create_task`'s generated task
record (ulid id, timestamps) does not influence the returned string. -/

/-- `FETCH_MAX_RESPONSE` from `config.ts`. -/
def FETCH_MAX_RESPONSE : Nat := 8000

/-- What `executeShell` resolves with. -/
structure ShellResult where
  stdout : String
  stderr : String
  exitCode : Int
deriving DecidableEq

/-- The argument record of a `fetch_url` HTTP call. -/
structure FetchArgs where
  url : Option String
  method : String
  headers : Option String
  body : Option String
deriving DecidableEq

/-- What a fetch resolves with: status, `content-type` header
(`|| ''` already applied), body text. -/
structure FetchResult where
  status : Nat
  contentType : String
  body : String
deriving DecidableEq

/-- What the indirect `eval` of the `javascript` tool produces:
`undefined`, `null`, an object (whose `JSON.stringify` may itself throw,
hence the optional `json`, with the `String(result)` fallback `str`), or
any other primitive rendered by `String(…)`. -/
inductive JsEvalOut where
  | undef
  | nullv
  | objv (json : Option String) (str : String)
  | prim (s : String)
deriving DecidableEq

/-- The effectful collaborators `executeTool` dispatches to. -/
structure ToolEnv where
  shell : Option String → String → Nat → Except String ShellResult
  readFile : String → Option String → Except String String
  writeFile : String → Option String → Option String → Except String Unit
  listFiles : String → String → Except String (List String)
  fetchProxy : FetchArgs → Except String FetchResult
  fetchDirect : FetchArgs → Except String FetchResult
  stripHtml : String → String
  evalJs : Option String → Except String JsEvalOut

/-- The `input: Record<string, unknown>` of a tool call: every field the
nine tools read, each possibly absent. -/
structure ToolInput where
  command : Option String := none
  timeout : Option Nat := none
  path : Option String := none
  content : Option String := none
  url : Option String := none
  method : Option String := none
  headers : Option String := none
  body : Option String := none
  schedule : Option String := none
  prompt : Option String := none
  code : Option String := none
  html : Option String := none
  title : Option String := none
  height : Option Nat := none
deriving DecidableEq

/-- JS `x || undefined` for an optional string (`""` becomes `undefined`). -/
def jsOrUndef (o : Option String) : Option String :=
  if jsFalsyStr o then none else o

/-- Reading `.length` of a possibly-`undefined` string: JS throws a
`TypeError` on `undefined`. -/
def jsLen (o : Option String) : Except String Nat :=
  match o with
  | some s => Except.ok s.length
  | none => Except.error "Cannot read properties of undefined (reading length)"

/-- The `try` block of `executeTool`: the switch over the tool name.
A thrown collaborator exception propagates as `.error`. -/
def executeToolBody (env : ToolEnv) (name : String) (input : ToolInput)
    (groupId : String) : Except String String :=
  if name = "bash" then do
    let result ← env.shell input.command groupId (min (jsOrNat input.timeout 30) 120)
    let output := result.stdout
    let output :=
      if result.stderr ≠ "" then
        output ++ (if output ≠ "" then "\n" else "") ++ result.stderr
      else output
    let output :=
      if result.exitCode ≠ 0 ∧ result.stderr = "" then
        output ++ "\n[exit code: " ++ toString result.exitCode ++ "]"
      else output
    pure (if output = "" then "(no output)" else output)
  else if name = "read_file" then
    env.readFile groupId input.path
  else if name = "write_file" then do
    let _ ← env.writeFile groupId input.path input.content
    let clen ← jsLen input.content
    pure ("Written " ++ toString clen ++ " bytes to " ++ jsShow input.path)
  else if name = "list_files" then do
    let entries ← env.listFiles groupId (jsOrStr input.path ".")
    pure (if entries.length > 0 then String.intercalate "\n" entries
          else "(empty directory)")
  else if name = "fetch_url" then do
    let method := jsOrStr input.method "GET"
    let fetchRes ←
      match env.fetchProxy { url := input.url, method := method,
                             headers := jsOrUndef input.headers,
                             body := jsOrUndef input.body } with
      | Except.ok r => Except.ok r
      | Except.error _ =>
        -- proxy unavailable — fall back to a direct fetch, whose failure
        -- does propagate
        env.fetchDirect { url := input.url, method := method,
                          headers := input.headers, body := input.body }
    let rawText := fetchRes.body
    let status := "[HTTP " ++ toString fetchRes.status ++ "]\n"
    let bodyText :=
      if strIncludes fetchRes.contentType "html"
          || strStartsWith (jsTrimStart rawText) "<" then
        env.stripHtml rawText
      else rawText
    pure (status ++ strSlice bodyText FETCH_MAX_RESPONSE)
  else if name = "update_memory" then do
    let _ ← env.writeFile groupId (some "CLAUDE.md") input.content
    pure "Memory updated successfully."
  else if name = "create_task" then
    pure ("Task created successfully.\nSchedule: " ++ jsShow input.schedule
      ++ "\nPrompt: " ++ jsShow input.prompt)
  else if name = "javascript" then
    -- the tool has its own inner try/catch: an eval failure is returned
    -- as a "JavaScript error: …" string, it never reaches the outer catch
    pure (match env.evalJs input.code with
      | Except.error e => "JavaScript error: " ++ e
      | Except.ok JsEvalOut.undef => "(no return value)"
      | Except.ok JsEvalOut.nullv => "null"
      | Except.ok (JsEvalOut.objv (some j) _) => j
      | Except.ok (JsEvalOut.objv none s) => s
      | Except.ok (JsEvalOut.prim s) => s)
  else if name = "html_preview" then do
    let title := jsOrStr input.title "Preview"
    let height := min (jsOrNat input.height 400) 800
    let hlen ← jsLen input.html
    pure ("HTML preview rendered: \"" ++ title ++ "\" (" ++ toString hlen
      ++ " bytes, " ++ toString height ++ "px tall)")
  else
    pure ("Unknown tool: " ++ name)

/-- `executeTool`: the switch wrapped in the outer `try/catch` — any
exception becomes a `Tool error (name): …` string, so the executor always
returns a string. -/
def executeTool (env : ToolEnv) (name : String) (input : ToolInput)
    (groupId : String) : String :=
  match executeToolBody env name input groupId with
  | Except.ok s => s
  | Except.error e => "Tool error (" ++ name ++ "): " ++ e

/-- The nine tool names `executeTool` recognizes. -/
def knownToolNames : List String :=
  ["bash", "read_file", "write_file", "list_files", "fetch_url",
   "update_memory", "create_task", "javascript", "html_preview"]

/-- C9: the tool executor is total — it returns a string for every name,
input and group (its Lean type), an unrecognized tool name yields the
textual `Unknown tool: …` result rather than an abort, and any exception
escaping a tool body is returned as a `Tool error (…): …` string. -/
theorem executeTool_total (env : ToolEnv) (name : String) (input : ToolInput)
    (groupId : String) :
    (name ∉ knownToolNames →
      executeTool env name input groupId = "Unknown tool: " ++ name) ∧
    (∀ e, executeToolBody env name input groupId = Except.error e →
      executeTool env name input groupId = "Tool error (" ++ name ++ "): " ++ e) := by
  constructor
  · intro hname
    simp only [knownToolNames, List.mem_cons, List.not_mem_nil, or_false, not_or] at hname
    obtain ⟨h1, h2, h3, h4, h5, h6, h7, h8, h9⟩ := hname
    simp only [executeTool, executeToolBody, if_neg h1, if_neg h2, if_neg h3, if_neg h4,
      if_neg h5, if_neg h6, if_neg h7, if_neg h8, if_neg h9]
    rfl
  · intro e he
    simp only [executeTool, he]

/-- A concrete environment whose collaborators all succeed trivially
(C9 witness). -/
def trivToolEnv : ToolEnv :=
  { shell := fun _ _ _ => Except.ok { stdout := "", stderr := "", exitCode := 0 }
    readFile := fun _ _ => Except.ok ""
    writeFile := fun _ _ _ => Except.ok ()
    listFiles := fun _ _ => Except.ok []
    fetchProxy := fun _ => Except.ok { status := 200, contentType := "", body := "" }
    fetchDirect := fun _ => Except.ok { status := 200, contentType := "", body := "" }
    stripHtml := fun s => s
    evalJs := fun _ => Except.ok (JsEvalOut.prim "") }

/-- C9 witness: the theorem at a concrete unknown tool name. -/
theorem executeTool_total_witness :
    executeTool trivToolEnv "teleport" {} "br:main" = "Unknown tool: teleport" :=
  (executeTool_total trivToolEnv "teleport" {} "br:main").1 (by decide)

end OBC
